import Mathlib

/-!
Shallow embedding of the presage command/event dispatch engine
(src/src/{error,event,command,configuration,command_bus}.rs).

Conventions of the embedding:
* Rust `&'static str` names are Lean `String`.
* `HashMap<&'static str, V>` is embedded extensionally as `String → Option V`;
  `HashMap<&'static str, Vec<V>>` as `String → List V` (an absent key and an
  empty vector are indistinguishable to every reader in the source: the
  registration API only ever stores non-empty vectors).
* `serde_json::Value` is embedded as the inductive `Value` below; the
  serde machinery for a concrete event type `T` (an external crate, not part
  of this repository) is a record `EventType T` of an encoder and a decoder.
* `Box<dyn Any + Send + Sync>` is embedded as a tagged dependent pair over an
  arbitrary tag type `κ` with decidable equality (the tag plays the role of
  `TypeId`) and an interpretation `El : κ → Type`.
* Rust handlers take `&mut C` and return `Result<_, E>`; they are embedded as
  functions `C → _ → C × Except E _`: the returned context is kept even on
  error, matching the fact that mutations performed before a failure persist.
* `async` is irrelevant to the embedded behaviour (one `execute` call runs
  handlers sequentially); `log::warn!` is a pure diagnostic and is embedded
  as a no-op.
* The `while let Some(command) = commands.pop_front()` loop of
  `CommandBus::execute` need not terminate, so it is embedded with explicit
  fuel; running out of fuel is a distinguished outcome that no claim is about.
-/

/-- The error enum of src/src/error.rs.  `serde_json::Error` (the payload of
`SerializationError`) is opaque to the repository; it is embedded as its
display message. -/
inductive Error where
  | CommandDowncastError (typeName : String)
  | SerializationError (msg : String)
  | MissingCommandHandler (commandName : String)
deriving DecidableEq, Repr

/-- `serde_json::Value`: a self-describing JSON-like tree (numbers are
simplified to `Int`, which is irrelevant to every claim). -/
inductive Value where
  | null
  | bool (b : Bool)
  | num (n : Int)
  | str (s : String)
  | arr (elems : List Value)
  | obj (fields : List (String × Value))

/-- `SerializedEvent` of src/src/event.rs: a static name plus an opaque
structured value. -/
structure SerializedEvent where
  name : String
  value : Value

/-- The serde side of an `Event` implementation for a concrete type `T`:
`T : Serialize + DeserializeOwned` plus the associated constant `NAME`.
`toValue` is `serde_json::to_value`, `fromValue` is `serde_json::from_value`;
both live in external crates, so they are opaque parameters here. -/
structure EventType (T : Type) where
  NAME : String
  toValue : T → Except String Value
  fromValue : Value → Except String T

/-- `Event::serialize` (src/src/event.rs lines 33-38): wrap the encoded value
together with the static name; a `serde_json::Error` is converted into
`Error::SerializationError` by the `?` / `#[from]` conversion. -/
def EventType.serialize {T : Type} (et : EventType T) (x : T) :
    Except Error SerializedEvent :=
  match et.toValue x with
  | .error msg => .error (.SerializationError msg)
  | .ok v => .ok { name := et.NAME, value := v }

/-- `SerializedEvent::deserialize` (src/src/event.rs lines 89-91): decode the
stored value; the stored name is not consulted. -/
def SerializedEvent.deserialize {T : Type} (et : EventType T)
    (se : SerializedEvent) : Except Error T :=
  match et.fromValue se.value with
  | .error msg => .error (.SerializationError msg)
  | .ok x => .ok x

/-- `BoxedCommand` of src/src/command.rs: the static name plus the payload
behind `Box<dyn Any + Send + Sync>`, embedded as a tag (the dynamic type)
and a payload of the type the tag denotes. -/
structure BoxedCommand (κ : Type) (El : κ → Type) where
  name : String
  tag : κ
  payload : El tag

/-- The `Command` trait side of a concrete command type: its associated
constant `NAME` (a function of the tag) together with `std::any::type_name`
(used only in the downcast error message). -/
structure CommandNames (κ : Type) where
  NAME : κ → String
  typeName : κ → String

/-- `impl<C: Command> From<C> for BoxedCommand` (src/src/command.rs lines
59-66): capture the static name and move the payload into the box. -/
def CommandNames.box {κ : Type} {El : κ → Type} (cn : CommandNames κ)
    (t : κ) (x : El t) : BoxedCommand κ El :=
  { name := cn.NAME t, tag := t, payload := x }

/-- `BoxedCommand::downcast` (src/src/command.rs lines 51-57): succeed with
the original payload when the dynamic type matches the requested one, and
fail with `Error::CommandDowncastError(type_name::<C>())` otherwise. -/
def BoxedCommand.downcast {κ : Type} {El : κ → Type} [DecidableEq κ]
    (cn : CommandNames κ) (b : BoxedCommand κ El) (t : κ) :
    Except Error (El t) :=
  if h : b.tag = t then .ok (h ▸ b.payload) else
    .error (.CommandDowncastError (cn.typeName t))

/-- The `CommandHandler<C, E>` trait (src/src/command.rs lines 115-121):
`command_name` plus `handle(context, boxed_command) -> Result<Events, E>`.
`Events` is the transparent wrapper around `Vec<SerializedEvent>`, embedded
directly as the list. -/
structure CommandHandler (C E κ : Type) (El : κ → Type) where
  command_name : String
  handle : C → BoxedCommand κ El → C × Except E (List SerializedEvent)

/-- The `EventWriter<C, E>` trait (src/src/command_bus.rs lines 149-155):
`event_names` plus `write(context, &event) -> Result<(), E>`. -/
structure EventWriter (C E : Type) where
  event_names : List String
  write : C → SerializedEvent → C × Except E Unit

/-- The `EventHandler<C, E>` trait (src/src/event.rs lines 149-155):
`event_names` plus `handle(context, &event) -> Result<Commands, E>`.
`Commands` is the transparent wrapper around `Vec<BoxedCommand>`, embedded
directly as the list. -/
structure EventHandler (C E κ : Type) (El : κ → Type) where
  event_names : List String
  handle : C → SerializedEvent → C × Except E (List (BoxedCommand κ El))

/-- `Configuration` (src/src/configuration.rs lines 10-17) together with its
event-writer registry.  The `command_handlers` and `event_handlers` fields
are in src/src/configuration.rs; the `event_writers` field is
*modelled from the spec*: `CommandBus::configure` (src/src/command_bus.rs
line 55) reads `configuration.event_writers` and its doc example calls
`Configuration::event_writer`, but the field and the method are missing from
src/src/configuration.rs; the spec prescribes an event-name→writer map with
at most one writer per event name, merged like the command-handler map. -/
structure Configuration (C E κ : Type) (El : κ → Type) where
  command_handlers : String → Option (CommandHandler C E κ El)
  event_writers : String → Option (EventWriter C E)
  event_handlers : String → List (EventHandler C E κ El)

namespace Configuration

variable {C E κ : Type} {El : κ → Type}

/-- `Configuration::new` (src/src/configuration.rs lines 21-26): all
registries empty. -/
def new : Configuration C E κ El :=
  { command_handlers := fun _ => none
    event_writers := fun _ => none
    event_handlers := fun _ => [] }

/-- `Configuration::event_handler` (src/src/configuration.rs lines 30-38):
for each name in `handler.event_names()`, push the handler onto that name's
list (creating it when absent).  A name occurring k times in `event_names`
is pushed k times, hence the `count`. -/
def event_handler (cfg : Configuration C E κ El)
    (handler : EventHandler C E κ El) : Configuration C E κ El :=
  { cfg with
    event_handlers := fun n =>
      cfg.event_handlers n ++ List.replicate (handler.event_names.count n) handler }

/-- `Configuration::command_handler` (src/src/configuration.rs lines 42-46):
insert under the handler's command name, overwriting any prior entry. -/
def command_handler (cfg : Configuration C E κ El)
    (handler : CommandHandler C E κ El) : Configuration C E κ El :=
  { cfg with
    command_handlers := fun n =>
      if n = handler.command_name then some handler else cfg.command_handlers n }

/-- Modelled from the spec: `Configuration::event_writer`, the registration
method shown in the `CommandBus::configure` doc example
(src/src/command_bus.rs line 49) but missing from src/src/configuration.rs.
Per the spec a writer is keyed by each static event name it declares, at
most one writer per name (a later registration overwrites). -/
def event_writer (cfg : Configuration C E κ El)
    (writer : EventWriter C E) : Configuration C E κ El :=
  { cfg with
    event_writers := fun n =>
      if n ∈ writer.event_names then some writer else cfg.event_writers n }

/-- `impl AddAssign for Configuration` (src/src/configuration.rs lines
64-78): per event name, the right-hand handler list is appended to the
left-hand one (`Entry::Occupied` extends, `Entry::Vacant` inserts); the
command-handler map is extended by the right-hand map, right entries
overwriting on collision.  The event-writer union (right wins) is the
spec-prescribed treatment of the modelled `event_writers` field. -/
def addConf (a b : Configuration C E κ El) : Configuration C E κ El :=
  { command_handlers := fun n =>
      match b.command_handlers n with
      | some h => some h
      | none => a.command_handlers n
    event_writers := fun n =>
      match b.event_writers n with
      | some w => some w
      | none => a.event_writers n
    event_handlers := fun n => a.event_handlers n ++ b.event_handlers n }

instance : Add (Configuration C E κ El) := ⟨addConf⟩

theorem add_def (a b : Configuration C E κ El) : a + b = addConf a b := rfl

end Configuration

/-- `CommandBus` (src/src/command_bus.rs lines 15-23): the three registries,
immutable during `execute`. -/
structure CommandBus (C E κ : Type) (El : κ → Type) where
  command_handlers : String → Option (CommandHandler C E κ El)
  event_writers : String → Option (EventWriter C E)
  event_handlers : String → List (EventHandler C E κ El)

namespace CommandBus

variable {C E κ : Type} {El : κ → Type}

/-- `CommandBus::new` (src/src/command_bus.rs lines 33-39). -/
def new : CommandBus C E κ El :=
  { command_handlers := fun _ => none
    event_writers := fun _ => none
    event_handlers := fun _ => [] }

/-- `CommandBus::configure` (src/src/command_bus.rs lines 54-59): each bus
map is extended by the configuration's map; for `event_handlers`,
`HashMap::extend` replaces the whole list of a colliding key (a key is
present exactly when its list is non-empty, see the map embedding note). -/
def configure (bus : CommandBus C E κ El) (cfg : Configuration C E κ El) :
    CommandBus C E κ El :=
  { command_handlers := fun n =>
      match cfg.command_handlers n with
      | some h => some h
      | none => bus.command_handlers n
    event_writers := fun n =>
      match cfg.event_writers n with
      | some w => some w
      | none => bus.event_writers n
    event_handlers := fun n =>
      match cfg.event_handlers n with
      | [] => bus.event_handlers n
      | l => l }

/-- `CommandBus::get_command_handler` (src/src/command_bus.rs lines 87-95). -/
def get_command_handler (bus : CommandBus C E κ El) (command_name : String) :
    Except Error (CommandHandler C E κ El) :=
  match bus.command_handlers command_name with
  | some h => .ok h
  | none => .error (.MissingCommandHandler command_name)

/-- `CommandBus::write_event` (src/src/command_bus.rs lines 112-123): invoke
the registered writer, or — when none is registered — log a warning (a pure
diagnostic, a no-op here) and succeed. -/
def write_event (bus : CommandBus C E κ El) (context : C)
    (event : SerializedEvent) : C × Except E Unit :=
  match bus.event_writers event.name with
  | some writer => writer.write context event
  | none => (context, .ok ())

/-- The `for handler in handlers { commands.extend(handler.handle(context,
&event).await?) }` loop inside `CommandBus::handle_event`
(src/src/command_bus.rs lines 104-108): run the handlers in list order,
threading the context, concatenating the returned command batches,
stopping at the first error. -/
def run_event_handlers (handlers : List (EventHandler C E κ El)) (context : C)
    (event : SerializedEvent) : C × Except E (List (BoxedCommand κ El)) :=
  match handlers with
  | [] => (context, .ok [])
  | handler :: rest =>
    match handler.handle context event with
    | (c1, .error e) => (c1, .error e)
    | (c1, .ok cs) =>
      match run_event_handlers rest c1 event with
      | (c2, .error e) => (c2, .error e)
      | (c2, .ok cs2) => (c2, .ok (cs ++ cs2))

/-- `CommandBus::handle_event` (src/src/command_bus.rs lines 97-110): write
the event, then run the handlers registered under its name (an absent key
is the empty list in the map embedding). -/
def handle_event (bus : CommandBus C E κ El) (context : C)
    (event : SerializedEvent) : C × Except E (List (BoxedCommand κ El)) :=
  match bus.write_event context event with
  | (c1, .error e) => (c1, .error e)
  | (c1, .ok ()) => run_event_handlers (bus.event_handlers event.name) c1 event

/-- The `for event in events { commands.extend(self.handle_event(context,
event).await?) }` loop inside `CommandBus::execute`
(src/src/command_bus.rs lines 80-82): handle the events in batch order,
threading the context, concatenating the follow-up commands, stopping at
the first error.  (The source pushes each event's commands onto the pending
queue as it goes; the queue is not read while the batch is drained, so
collecting the commands and appending them once is equivalent.) -/
def handle_events (bus : CommandBus C E κ El) (context : C)
    (events : List SerializedEvent) :
    C × Except E (List (BoxedCommand κ El)) :=
  match events with
  | [] => (context, .ok [])
  | event :: rest =>
    match bus.handle_event context event with
    | (c1, .error e) => (c1, .error e)
    | (c1, .ok cs) =>
      match bus.handle_events c1 rest with
      | (c2, .error e) => (c2, .error e)
      | (c2, .ok cs2) => (c2, .ok (cs ++ cs2))
end CommandBus

/-- The outcome of one `execute` call: `Ok(())` with the final context,
`Err(e)` with the context as mutated up to the failure, or fuel exhaustion
(the source loop runs forever on a command/event feedback cycle). -/
inductive Outcome (C E : Type) where
  | ok (context : C)
  | err (context : C) (e : E)
  | outOfFuel (context : C)
deriving Repr

namespace CommandBus

variable {C E κ : Type} {El : κ → Type}

/-- The `while let Some(command) = commands.pop_front()` loop of
`CommandBus::execute` (src/src/command_bus.rs lines 74-84), with explicit
fuel.  `lift` is the `E: From<Error>` conversion applied by `?` to the
`get_command_handler` error.  Follow-up commands are appended to the back
of the queue (`commands.extend`). -/
def run_queue (bus : CommandBus C E κ El) (lift : Error → E) :
    Nat → C → List (BoxedCommand κ El) → Outcome C E
  | _, context, [] => .ok context
  | 0, context, _ :: _ => .outOfFuel context
  | fuel + 1, context, command :: rest =>
    match bus.command_handlers command.name with
    | none => .err context (lift (.MissingCommandHandler command.name))
    | some handler =>
      match handler.handle context command with
      | (c1, .error e) => .err c1 e
      | (c1, .ok events) =>
        match bus.handle_events c1 events with
        | (c2, .error e) => .err c2 e
        | (c2, .ok newCommands) =>
          bus.run_queue lift fuel c2 (rest ++ newCommands)

/-- `CommandBus::execute` (src/src/command_bus.rs lines 70-85): seed the
queue with the one submitted command, boxed by `command.into()`, and drain
it. -/
def execute (bus : CommandBus C E κ El) (lift : Error → E)
    (cn : CommandNames κ) (fuel : Nat) (context : C) (t : κ) (x : El t) :
    Outcome C E :=
  bus.run_queue lift fuel context [cn.box t x]

end CommandBus

/-!
Spec-side refinement definitions.  The next two definitions follow the
spec's words rather than the source: they name, per event and per handler,
the individual command batches whose concatenation the spec says the source
loops produce ("the union (concatenation, in order) of commands they
return", "commands from different originating events interleave in the
order their originating events were processed").
-/

namespace CommandBus

variable {C E κ : Type} {El : κ → Type}

/-- Spec-side: the command batches returned by each registered event
handler, one batch per handler, in registration order, contexts threaded
left to right, stopping at the first error. -/
def per_handler_commands (handlers : List (EventHandler C E κ El))
    (context : C) (event : SerializedEvent) :
    C × Except E (List (List (BoxedCommand κ El))) :=
  match handlers with
  | [] => (context, .ok [])
  | handler :: rest =>
    match handler.handle context event with
    | (c1, .error e) => (c1, .error e)
    | (c1, .ok cs) =>
      match per_handler_commands rest c1 event with
      | (c2, .error e) => (c2, .error e)
      | (c2, .ok bs) => (c2, .ok (cs :: bs))

/-- Spec-side: the follow-up commands contributed by each event of a batch,
one list per event, in batch order; each event is fully written and fanned
out (`handle_event`) before the next one is looked at. -/
def per_event_commands (bus : CommandBus C E κ El)
    (events : List SerializedEvent) (context : C) :
    C × Except E (List (List (BoxedCommand κ El))) :=
  match events with
  | [] => (context, .ok [])
  | event :: rest =>
    match bus.handle_event context event with
    | (c1, .error e) => (c1, .error e)
    | (c1, .ok cs) =>
      match bus.per_event_commands rest c1 with
      | (c2, .error e) => (c2, .error e)
      | (c2, .ok bs) => (c2, .ok (cs :: bs))

end CommandBus

/-!
Concrete fixtures: a small task-like domain used to evaluate the theorems
on closed inputs.  Commands are payload-free and identified by `Nat` tags;
the context is a log of the invocations performed on it, which makes both
invocation order and partial mutation observable.
-/

/-- Payload interpretation of the concrete command universe: every command
tag carries a unit payload. -/
def El0 : Nat → Type := fun _ => Unit

/-- Static command names of the concrete universe. -/
def nameOf : Nat → String := fun t =>
  match t with
  | 0 => "a"
  | 1 => "b"
  | 2 => "c"
  | 3 => "d"
  | _ => "z"

/-- `Command::NAME` / `type_name` assignment for the concrete universe. -/
def cn0 : CommandNames Nat := { NAME := nameOf, typeName := nameOf }

/-- A boxed concrete command. -/
def bxc (t : Nat) : BoxedCommand Nat El0 := cn0.box t ()

/-- A concrete event named `e1`. -/
def ev1 : SerializedEvent := { name := "e1", value := .null }

/-- A concrete event named `e2` (no writer is registered for it). -/
def ev2 : SerializedEvent := { name := "e2", value := .null }

/-- Concrete handler for command `a`: logs and emits `[ev1, ev2]`. -/
def cmdA : CommandHandler (List String) Error Nat El0 :=
  { command_name := "a"
    handle := fun ctx _ => (ctx ++ ["handle a"], .ok [ev1, ev2]) }

/-- Concrete handler for command `b`: logs and emits no event. -/
def cmdB : CommandHandler (List String) Error Nat El0 :=
  { command_name := "b"
    handle := fun ctx _ => (ctx ++ ["handle b"], .ok []) }

/-- Concrete handler for command `c`: logs and emits no event. -/
def cmdC : CommandHandler (List String) Error Nat El0 :=
  { command_name := "c"
    handle := fun ctx _ => (ctx ++ ["handle c"], .ok []) }

/-- Concrete handler for command `d`: logs and emits no event. -/
def cmdD : CommandHandler (List String) Error Nat El0 :=
  { command_name := "d"
    handle := fun ctx _ => (ctx ++ ["handle d"], .ok []) }

/-- Concrete event handler on `e1`: logs and issues command `b`. -/
def eh1 : EventHandler (List String) Error Nat El0 :=
  { event_names := ["e1"]
    handle := fun ctx _ => (ctx ++ ["eh1"], .ok [bxc 1]) }

/-- Concrete event handler on `e1`: logs and issues commands `c` and `d`. -/
def eh2 : EventHandler (List String) Error Nat El0 :=
  { event_names := ["e1"]
    handle := fun ctx _ => (ctx ++ ["eh2"], .ok [bxc 2, bxc 3]) }

/-- Concrete failing event handler on `e1`: logs, then errors. -/
def ehBad : EventHandler (List String) Error Nat El0 :=
  { event_names := ["e1"]
    handle := fun ctx _ => (ctx ++ ["ehBad"], .error (.SerializationError "bad handler")) }

/-- Concrete writer for `e1`: logs and succeeds. -/
def writer1 : EventWriter (List String) Error :=
  { event_names := ["e1"]
    write := fun ctx _ => (ctx ++ ["write e1"], .ok ()) }

/-- Concrete failing writer for `e1`: logs, then errors. -/
def writerBad : EventWriter (List String) Error :=
  { event_names := ["e1"]
    write := fun ctx _ => (ctx ++ ["write e1 failed"], .error (.SerializationError "boom")) }

/-- The main concrete bus: handlers for `a`-`d`, a writer and two event
handlers on `e1`, nothing on `e2`. -/
def bus0 : CommandBus (List String) Error Nat El0 :=
  { command_handlers := fun n =>
      if n = "a" then some cmdA
      else if n = "b" then some cmdB
      else if n = "c" then some cmdC
      else if n = "d" then some cmdD
      else none
    event_writers := fun n => if n = "e1" then some writer1 else none
    event_handlers := fun n => if n = "e1" then [eh1, eh2] else [] }

/-- `bus0` with the writer on `e1` replaced by the failing writer. -/
def busW : CommandBus (List String) Error Nat El0 :=
  { bus0 with event_writers := fun n => if n = "e1" then some writerBad else none }

/-- `bus0` with the failing event handler spliced between `eh1` and `eh2`
on `e1`. -/
def busH : CommandBus (List String) Error Nat El0 :=
  { bus0 with event_handlers := fun n => if n = "e1" then [eh1, ehBad, eh2] else [] }

/-- A concrete `Event` implementation for `Int` payloads (a stand-in for a
derived serde implementation on a plain data type). -/
def intEvent : EventType Int :=
  { NAME := "int-event"
    toValue := fun n => .ok (.num n)
    fromValue := fun v =>
      match v with
      | .num n => .ok n
      | _ => .error "expected a number" }

/-- Payload interpretation for the two-type downcast universe. -/
abbrev El9 : Bool → Type := fun _ => Int

/-- Names for the two-type downcast universe: tag `true` is type `TypeT`,
tag `false` is type `TypeU`. -/
def cn9 : CommandNames Bool :=
  { NAME := fun _ => "the-command", typeName := fun b => cond b "TypeT" "TypeU" }

/-- A boxed command of the two-type universe. -/
def bx9 (t : Bool) (x : El9 t) : BoxedCommand Bool El9 := cn9.box t x

/-!
Helper lemmas shared by the claim theorems.
-/

/-- Associativity of configuration merging: both sides key-wise pick the
rightmost command handler / event writer and concatenate handler lists. -/
theorem Configuration.addConf_assoc {C E κ : Type} {El : κ → Type}
    (a b c : Configuration C E κ El) : (a + b) + c = a + (b + c) := by
  rw [Configuration.add_def, Configuration.add_def, Configuration.add_def,
    Configuration.add_def]
  unfold Configuration.addConf
  simp only [Configuration.mk.injEq]
  refine ⟨funext fun n => ?_, funext fun n => ?_, funext fun n => ?_⟩
  · cases c.command_handlers n <;> cases b.command_handlers n <;> rfl
  · cases c.event_writers n <;> cases b.event_writers n <;> rfl
  · simp [List.append_assoc]

/-- The accumulating handler loop of `handle_event` computes the
concatenation of the per-handler batches and runs every handler. -/
theorem per_handler_commands_flatten {C E κ : Type} {El : κ → Type}
    (handlers : List (EventHandler C E κ El)) (context c2 : C)
    (event : SerializedEvent) (batches : List (List (BoxedCommand κ El)))
    (h : CommandBus.per_handler_commands handlers context event
          = (c2, .ok batches)) :
    CommandBus.run_event_handlers handlers context event
      = (c2, .ok batches.flatten)
    ∧ batches.length = handlers.length := by
  induction handlers generalizing context batches with
  | nil =>
    simp only [CommandBus.per_handler_commands, Prod.mk.injEq,
      Except.ok.injEq] at h
    obtain ⟨rfl, rfl⟩ := h
    simp [CommandBus.run_event_handlers]
  | cons handler rest ih =>
    rw [CommandBus.per_handler_commands] at h
    rcases hh : handler.handle context event with ⟨c1, r⟩
    rw [hh] at h
    cases r with
    | error e => simp at h
    | ok cs =>
      simp only at h
      rcases hp : CommandBus.per_handler_commands rest c1 event with ⟨c2x, r2⟩
      rw [hp] at h
      cases r2 with
      | error e => simp at h
      | ok bs =>
        simp only [Prod.mk.injEq, Except.ok.injEq] at h
        obtain ⟨rfl, rfl⟩ := h
        obtain ⟨hrun, hlen⟩ := ih c1 bs hp
        rw [CommandBus.run_event_handlers, hh]
        simp only
        rw [hrun]
        simp [hlen]

/-- The event-draining loop of `execute` computes the concatenation of the
per-event follow-up command batches and drains every event. -/
theorem per_event_commands_flatten {C E κ : Type} {El : κ → Type}
    (bus : CommandBus C E κ El) (events : List SerializedEvent)
    (context c2 : C) (batches : List (List (BoxedCommand κ El)))
    (h : bus.per_event_commands events context = (c2, .ok batches)) :
    bus.handle_events context events = (c2, .ok batches.flatten)
    ∧ batches.length = events.length := by
  induction events generalizing context batches with
  | nil =>
    simp only [CommandBus.per_event_commands, Prod.mk.injEq,
      Except.ok.injEq] at h
    obtain ⟨rfl, rfl⟩ := h
    simp [CommandBus.handle_events]
  | cons event rest ih =>
    rw [CommandBus.per_event_commands] at h
    rcases hh : bus.handle_event context event with ⟨c1, r⟩
    rw [hh] at h
    cases r with
    | error e => simp at h
    | ok cs =>
      simp only at h
      rcases hp : bus.per_event_commands rest c1 with ⟨c2x, r2⟩
      rw [hp] at h
      cases r2 with
      | error e => simp at h
      | ok bs =>
        simp only [Prod.mk.injEq, Except.ok.injEq] at h
        obtain ⟨rfl, rfl⟩ := h
        obtain ⟨hrun, hlen⟩ := ih c1 bs hp
        rw [CommandBus.handle_events, hh]
        simp only
        rw [hrun]
        simp [hlen]

/-- Appending to an event batch whose prefix is handled without error:
the prefix's context and commands thread into the suffix. -/
theorem handle_events_ok_append {C E κ : Type} {El : κ → Type}
    (bus : CommandBus C E κ El) (pre post : List SerializedEvent)
    (context c1 : C) (cs : List (BoxedCommand κ El))
    (h : bus.handle_events context pre = (c1, .ok cs)) :
    bus.handle_events context (pre ++ post)
      = match bus.handle_events c1 post with
        | (c2, .error e) => (c2, .error e)
        | (c2, .ok cs2) => (c2, .ok (cs ++ cs2)) := by
  induction pre generalizing context cs with
  | nil =>
    simp only [CommandBus.handle_events, Prod.mk.injEq, Except.ok.injEq] at h
    obtain ⟨rfl, rfl⟩ := h
    rcases hp : bus.handle_events context post with ⟨c2, r⟩
    cases r <;> simp [hp]
  | cons event rest ih =>
    rw [CommandBus.handle_events] at h
    rcases hh : bus.handle_event context event with ⟨cx, r⟩
    rw [hh] at h
    cases r with
    | error e => simp at h
    | ok cs0 =>
      simp only at h
      rcases hr : bus.handle_events cx rest with ⟨cy, r2⟩
      rw [hr] at h
      cases r2 with
      | error e => simp at h
      | ok cs1 =>
        simp only [Prod.mk.injEq, Except.ok.injEq] at h
        obtain ⟨rfl, rfl⟩ := h
        have hstep := ih cx cs1 hr
        rw [List.cons_append, CommandBus.handle_events, hh]
        simp only
        rw [hstep]
        rcases hp : bus.handle_events cy post with ⟨c2z, r3⟩
        cases r3 <;> simp [List.append_assoc]

/-- Appending to a handler list whose prefix runs without error. -/
theorem run_event_handlers_ok_append {C E κ : Type} {El : κ → Type}
    (handlers1 handlers2 : List (EventHandler C E κ El))
    (context c1 : C) (event : SerializedEvent)
    (cs : List (BoxedCommand κ El))
    (h : CommandBus.run_event_handlers handlers1 context event
          = (c1, .ok cs)) :
    CommandBus.run_event_handlers (handlers1 ++ handlers2) context event
      = match CommandBus.run_event_handlers handlers2 c1 event with
        | (c2, .error e) => (c2, .error e)
        | (c2, .ok cs2) => (c2, .ok (cs ++ cs2)) := by
  induction handlers1 generalizing context cs with
  | nil =>
    simp only [CommandBus.run_event_handlers, Prod.mk.injEq,
      Except.ok.injEq] at h
    obtain ⟨rfl, rfl⟩ := h
    rcases hp : CommandBus.run_event_handlers handlers2 context event with ⟨c2, r⟩
    cases r <;> simp [hp]
  | cons handler rest ih =>
    rw [CommandBus.run_event_handlers] at h
    rcases hh : handler.handle context event with ⟨cx, r⟩
    rw [hh] at h
    cases r with
    | error e => simp at h
    | ok cs0 =>
      simp only at h
      rcases hr : CommandBus.run_event_handlers rest cx event with ⟨cy, r2⟩
      rw [hr] at h
      cases r2 with
      | error e => simp at h
      | ok cs1 =>
        simp only [Prod.mk.injEq, Except.ok.injEq] at h
        obtain ⟨rfl, rfl⟩ := h
        have hstep := ih cx cs1 hr
        rw [List.cons_append, CommandBus.run_event_handlers, hh]
        simp only
        rw [hstep]
        rcases hp : CommandBus.run_event_handlers handlers2 cy event with ⟨c2z, r3⟩
        cases r3 <;> simp [List.append_assoc]

/-!
Claim theorems.
-/

/-- C1: the `Configuration` builder accumulates all three registries — the
command-name→handler map (`command_handler` inserts under the handler's
command name and leaves the other registries untouched), the
event-name→writer map (`event_writer` inserts under each declared event
name, at most one writer per name since an insertion overwrites), and the
event-name→handler-list map (`event_handler` appends under each declared
event name) — and merging two configurations (`+`, i.e. `AddAssign`)
unions the writer map along with the command-handler map, right-hand
entries winning, while event-handler lists are concatenated; handing the
result to the engine (`CommandBus::configure`) extends each bus registry
with the configuration's. -/
theorem configuration_accumulates_three_registries
    (C E κ : Type) (El : κ → Type) (cfg : Configuration C E κ El)
    (ch : CommandHandler C E κ El) (w : EventWriter C E)
    (eh : EventHandler C E κ El) (a b : Configuration C E κ El)
    (bus : CommandBus C E κ El) (n : String) :
    ((cfg.command_handler ch).command_handlers n
        = if n = ch.command_name then some ch else cfg.command_handlers n)
    ∧ (cfg.command_handler ch).event_writers = cfg.event_writers
    ∧ (cfg.command_handler ch).event_handlers = cfg.event_handlers
    ∧ ((cfg.event_writer w).event_writers n
        = if n ∈ w.event_names then some w else cfg.event_writers n)
    ∧ (cfg.event_writer w).command_handlers = cfg.command_handlers
    ∧ (cfg.event_writer w).event_handlers = cfg.event_handlers
    ∧ ((cfg.event_handler eh).event_handlers n
        = cfg.event_handlers n
            ++ List.replicate (eh.event_names.count n) eh)
    ∧ (cfg.event_handler eh).command_handlers = cfg.command_handlers
    ∧ (cfg.event_handler eh).event_writers = cfg.event_writers
    ∧ ((a + b).command_handlers n
        = match b.command_handlers n with
          | some h => some h
          | none => a.command_handlers n)
    ∧ ((a + b).event_writers n
        = match b.event_writers n with
          | some wr => some wr
          | none => a.event_writers n)
    ∧ ((a + b).event_handlers n = a.event_handlers n ++ b.event_handlers n)
    ∧ ((bus.configure a).command_handlers n
        = match a.command_handlers n with
          | some h => some h
          | none => bus.command_handlers n)
    ∧ ((bus.configure a).event_writers n
        = match a.event_writers n with
          | some wr => some wr
          | none => bus.event_writers n) :=
  ⟨rfl, rfl, rfl, rfl, rfl, rfl, rfl, rfl, rfl, rfl, rfl, rfl, rfl, rfl⟩

/-- C7: merging two configurations unions their command-handler maps with
the right-hand entry winning on a name collision, concatenates their
event-handler lists per event name with the left side's handlers first,
and the merge is associative. -/
theorem configuration_merge_right_biased_assoc
    (C E κ : Type) (El : κ → Type) (a b c : Configuration C E κ El)
    (n : String) :
    ((a + b).command_handlers n
      = match b.command_handlers n with
        | some h => some h
        | none => a.command_handlers n)
    ∧ ((a + b).event_handlers n = a.event_handlers n ++ b.event_handlers n)
    ∧ (a + b) + c = a + (b + c) :=
  ⟨rfl, rfl, Configuration.addConf_assoc a b c⟩

/-- C9: boxing a command value and downcasting the box to its own concrete
type returns the original value; downcasting any box to a type other than
the payload's dynamic type returns the command-downcast error naming the
requested type (and nothing else — no panic is modelled because none can
occur). -/
theorem boxed_command_downcast_round_trip
    (κ : Type) [DecidableEq κ] (El : κ → Type) (cn : CommandNames κ)
    (t : κ) (x : El t) :
    ((cn.box t x).downcast cn t = .ok x)
    ∧ ∀ (b : BoxedCommand κ El) (u : κ), b.tag ≠ u →
        b.downcast cn u = .error (.CommandDowncastError (cn.typeName u)) := by
  constructor
  · simp [BoxedCommand.downcast, CommandNames.box]
  · intro b u hne
    simp [BoxedCommand.downcast, hne]

/-- Witness for C9 at a two-type universe: tag `true` box downcasts to
itself and fails toward tag `false` with the error naming `TypeU`. -/
theorem boxed_command_downcast_round_trip_witness :
    ((bx9 true 7).downcast cn9 true = .ok 7)
    ∧ ((bx9 true 7).downcast cn9 false
        = .error (.CommandDowncastError "TypeU")) := by
  obtain ⟨h1, h2⟩ := boxed_command_downcast_round_trip Bool El9 cn9 true 7
  exact ⟨h1, h2 (bx9 true 7) false (by decide)⟩

/-- C10: `SerializedEvent::deserialize` never inspects the stored name —
deserializing an event equals deserializing the same value under any other
name, and it succeeds with `x` exactly when the type's decoder decodes the
stored value to `x`; hence an event serialized under one name deserializes
into any event type whose decoder accepts the stored value. -/
theorem deserialize_ignores_stored_name
    (T : Type) (et : EventType T) (se : SerializedEvent) (n : String)
    (x : T) :
    (SerializedEvent.deserialize et { name := n, value := se.value }
      = se.deserialize et)
    ∧ (se.deserialize et = .ok x ↔ et.fromValue se.value = .ok x) := by
  constructor
  · rfl
  · unfold SerializedEvent.deserialize
    rcases hv : et.fromValue se.value with msg | y <;> simp

/-- C6: for an event type `T` and a value `x` whose serde implementation
round-trips (`to_value` encodes `x` to some value that `from_value` decodes
back to `x` — the spec's "valid value", a property of the external serde
derivation, not of this repository), serializing `x` succeeds and
deserializing the resulting `SerializedEvent` back to `T` succeeds with a
value equal to `x`: the name envelope added by `Event::serialize` is
transparent to the round trip. -/
theorem serialize_deserialize_round_trip
    (T : Type) (et : EventType T) (x : T) (v : Value)
    (henc : et.toValue x = .ok v) (hdec : et.fromValue v = .ok x) :
    ∃ se, et.serialize x = .ok se ∧ se.deserialize et = .ok x := by
  refine ⟨{ name := et.NAME, value := v }, ?_, ?_⟩
  · simp [EventType.serialize, henc]
  · simp [SerializedEvent.deserialize, hdec]

/-- Witness for C6: the concrete integer event round-trips at `5`. -/
theorem serialize_deserialize_round_trip_witness :
    ∃ se, intEvent.serialize 5 = .ok se ∧ se.deserialize intEvent = .ok 5 :=
  serialize_deserialize_round_trip Int intEvent 5 (.num 5) rfl rfl

/-- C5: when no writer is registered for an event's name, the write step is
a no-op that succeeds with the context untouched (only a warning is
logged), and `handle_event` proceeds directly to the event's handlers, so
the missing writer never makes `execute` fail. -/
theorem missing_writer_is_tolerated
    (C E κ : Type) (El : κ → Type) (bus : CommandBus C E κ El)
    (context : C) (event : SerializedEvent)
    (h : bus.event_writers event.name = none) :
    bus.write_event context event = (context, .ok ())
    ∧ bus.handle_event context event
        = CommandBus.run_event_handlers (bus.event_handlers event.name)
            context event := by
  have hw : bus.write_event context event = (context, .ok ()) := by
    simp [CommandBus.write_event, h]
  refine ⟨hw, ?_⟩
  rw [CommandBus.handle_event, hw]

/-- Witness for C5: `bus0` has no writer for `ev2`. -/
theorem missing_writer_is_tolerated_witness :
    bus0.write_event ["x"] ev2 = (["x"], .ok ())
    ∧ bus0.handle_event ["x"] ev2
        = CommandBus.run_event_handlers (bus0.event_handlers ev2.name)
            ["x"] ev2 :=
  missing_writer_is_tolerated _ _ _ _ bus0 ["x"] ev2 rfl

/-- C2: executing a command whose static name has no registered command
handler returns the missing-command-handler error naming that command, and
the context is returned exactly as it was passed in — the lookup fails
before any handler or writer can run. -/
theorem execute_missing_command_handler
    (C E κ : Type) (El : κ → Type) (bus : CommandBus C E κ El)
    (lift : Error → E) (cn : CommandNames κ) (fuel : Nat) (context : C)
    (t : κ) (x : El t)
    (h : bus.command_handlers (cn.NAME t) = none) :
    bus.execute lift cn (fuel + 1) context t x
      = .err context (lift (.MissingCommandHandler (cn.NAME t))) := by
  rw [CommandBus.execute, CommandBus.run_queue]
  simp [CommandNames.box, h]

/-- Witness for C2: tag `9` has name `z`, which `bus0` does not serve. -/
theorem execute_missing_command_handler_witness :
    bus0.execute id cn0 4 [] 9 ()
      = .err [] (Error.MissingCommandHandler "z") :=
  execute_missing_command_handler _ _ _ _ bus0 id cn0 3 [] 9 () rfl

/-- C4: handling an event with N registered handlers invokes all N in
registration order (the per-handler batch list has exactly N entries, each
produced by the corresponding handler on the context as threaded by its
predecessors), and the commands enqueued for the event are exactly the
concatenation, in that order, of the batches the handlers return. -/
theorem event_handler_fan_out
    (C E κ : Type) (El : κ → Type) (bus : CommandBus C E κ El)
    (context c1 c2 : C) (event : SerializedEvent)
    (batches : List (List (BoxedCommand κ El)))
    (hw : bus.write_event context event = (c1, .ok ()))
    (hb : CommandBus.per_handler_commands (bus.event_handlers event.name)
            c1 event = (c2, .ok batches)) :
    bus.handle_event context event = (c2, .ok batches.flatten)
    ∧ batches.length = (bus.event_handlers event.name).length := by
  obtain ⟨hrun, hlen⟩ := per_handler_commands_flatten
    (bus.event_handlers event.name) c1 c2 event batches hb
  refine ⟨?_, hlen⟩
  rw [CommandBus.handle_event, hw]
  exact hrun

/-- Witness for C4: the two handlers on `ev1` run in order and their
batches `[b]` and `[c, d]` are concatenated. -/
theorem event_handler_fan_out_witness :
    bus0.handle_event [] ev1
      = (["write e1", "eh1", "eh2"], .ok [bxc 1, bxc 2, bxc 3]) :=
  (event_handler_fan_out _ _ _ _ bus0 [] ["write e1"]
    ["write e1", "eh1", "eh2"] ev1 [[bxc 1], [bxc 2, bxc 3]] rfl rfl).1

/-- C3: one iteration of the FIFO `execute` loop is breadth-first — when
the front command's handler emits the batch `events`, every event of the
batch is fully written and fanned out in batch order (`per_event_commands`
threads the context event by event, one batch of follow-up commands per
event) before the loop pops another command; the follow-up commands are
appended to the back of the queue behind the commands already pending, and
batches originating from different events keep the order in which their
events were processed. -/
theorem execute_is_breadth_first
    (C E κ : Type) (El : κ → Type) (bus : CommandBus C E κ El)
    (lift : Error → E) (fuel : Nat) (context c1 c2 : C)
    (command : BoxedCommand κ El) (rest : List (BoxedCommand κ El))
    (handler : CommandHandler C E κ El) (events : List SerializedEvent)
    (batches : List (List (BoxedCommand κ El)))
    (hl : bus.command_handlers command.name = some handler)
    (hh : handler.handle context command = (c1, .ok events))
    (hb : bus.per_event_commands events c1 = (c2, .ok batches)) :
    bus.run_queue lift (fuel + 1) context (command :: rest)
      = bus.run_queue lift fuel c2 (rest ++ batches.flatten)
    ∧ batches.length = events.length := by
  obtain ⟨hev, hlen⟩ := per_event_commands_flatten bus events c1 c2 batches hb
  refine ⟨?_, hlen⟩
  rw [CommandBus.run_queue, hl]
  simp only
  rw [hh]
  simp only
  rw [hev]

/-- Witness for C3: command `a` emits `[ev1, ev2]`; the already-pending
command `d` stays ahead of the follow-ups `b`, `c`, `d` gathered from
`ev1` (and the empty batch of `ev2`). -/
theorem execute_is_breadth_first_witness :
    bus0.run_queue id 4 [] [bxc 0, bxc 3]
      = bus0.run_queue id 3 ["handle a", "write e1", "eh1", "eh2"]
          ([bxc 3] ++ [bxc 1, bxc 2, bxc 3]) :=
  (execute_is_breadth_first _ _ _ _ bus0 id 3 [] ["handle a"]
    ["handle a", "write e1", "eh1", "eh2"] (bxc 0) [bxc 3] cmdA
    [ev1, ev2] [[bxc 1, bxc 2, bxc 3], []] rfl rfl rfl).1

/-- C8: the first error aborts the whole `execute` call and is returned
verbatim, with the context exactly as mutated up to the failure point.
Three cases, one per error source: (1) the front command's handler fails —
nothing else runs; (2) the writer of an event fails after an error-free
prefix of the batch — the remaining events of the batch, the event's
handlers, and the rest of the queue are never consulted; (3) an event
handler fails after the writer and an error-free prefix of the handler
list — the remaining handlers, events, and queued commands are never
consulted.  In each case the arbitrary `rest`/`post`/`hpost` suffixes do
not appear in the result. -/
theorem execute_aborts_on_first_error
    (C E κ : Type) (El : κ → Type) (bus : CommandBus C E κ El)
    (lift : Error → E) (fuel : Nat) (context c1 : C)
    (command : BoxedCommand κ El) (rest : List (BoxedCommand κ El))
    (handler : CommandHandler C E κ El)
    (hl : bus.command_handlers command.name = some handler) :
    (∀ e, handler.handle context command = (c1, .error e) →
       bus.run_queue lift (fuel + 1) context (command :: rest)
         = .err c1 e)
    ∧ (∀ pre event post c2 cs c3 e,
         handler.handle context command = (c1, .ok (pre ++ event :: post)) →
         bus.handle_events c1 pre = (c2, .ok cs) →
         bus.write_event c2 event = (c3, .error e) →
         bus.run_queue lift (fuel + 1) context (command :: rest)
           = .err c3 e)
    ∧ (∀ pre event post c2 cs c3 hpre c4 cs2 c5 e
         (hbad : EventHandler C E κ El) (hpost : List (EventHandler C E κ El)),
         handler.handle context command = (c1, .ok (pre ++ event :: post)) →
         bus.handle_events c1 pre = (c2, .ok cs) →
         bus.write_event c2 event = (c3, .ok ()) →
         bus.event_handlers event.name = hpre ++ hbad :: hpost →
         CommandBus.run_event_handlers hpre c3 event = (c4, .ok cs2) →
         hbad.handle c4 event = (c5, .error e) →
         bus.run_queue lift (fuel + 1) context (command :: rest)
           = .err c5 e) := by
  refine ⟨?_, ?_, ?_⟩
  · intro e hh
    rw [CommandBus.run_queue, hl]
    simp only
    rw [hh]
  · intro pre event post c2 cs c3 e hh hpres hw
    have hev1 : bus.handle_event c2 event = (c3, .error e) := by
      rw [CommandBus.handle_event, hw]
    have hev : bus.handle_events c1 (pre ++ event :: post) = (c3, .error e) := by
      rw [handle_events_ok_append bus pre (event :: post) c1 c2 cs hpres,
        CommandBus.handle_events, hev1]
    rw [CommandBus.run_queue, hl]
    simp only
    rw [hh]
    simp only
    rw [hev]
  · intro pre event post c2 cs c3 hpre c4 cs2 c5 e hbad hpost
      hh hpres hw hsplit hprefix hfail
    have hbadrun : CommandBus.run_event_handlers (hbad :: hpost) c4 event
        = (c5, .error e) := by
      rw [CommandBus.run_event_handlers, hfail]
    have hrun : CommandBus.run_event_handlers (hpre ++ hbad :: hpost) c3 event
        = (c5, .error e) := by
      rw [run_event_handlers_ok_append hpre (hbad :: hpost) c3 c4 event cs2
        hprefix, hbadrun]
    have hev1 : bus.handle_event c2 event = (c5, .error e) := by
      rw [CommandBus.handle_event, hw]
      rw [hsplit]
      exact hrun
    have hev : bus.handle_events c1 (pre ++ event :: post) = (c5, .error e) := by
      rw [handle_events_ok_append bus pre (event :: post) c1 c2 cs hpres,
        CommandBus.handle_events, hev1]
    rw [CommandBus.run_queue, hl]
    simp only
    rw [hh]
    simp only
    rw [hev]

/-- Witness for C8 (writer case): on `busW` the writer of `ev1` fails, so
`execute`'s loop returns its error with only the command handler's and the
failing writer's own mutations applied; `ev2` and the handlers of `ev1`
never run. -/
theorem execute_aborts_on_first_error_witness :
    busW.run_queue id 3 [] [bxc 0]
      = .err ["handle a", "write e1 failed"] (Error.SerializationError "boom") :=
  ((execute_aborts_on_first_error _ _ _ _ busW id 2 [] ["handle a"]
      (bxc 0) [] cmdA rfl).2.1)
    [] ev1 [ev2] ["handle a"] [] ["handle a", "write e1 failed"]
    (Error.SerializationError "boom") rfl rfl rfl
